import Mathlib

/-!
Verification development for the outbreaks-forecasting repository.

The two source files are embedded shallowly:
* `src/data_processing/feature_engineering.py` — temporal/weather feature
  construction on a pandas dataframe;
* `src/models/forecaster.py` — per-city aggregation and Prophet-based
  forecasting orchestration.

Dataframe cells are modelled as `Option ℚ`, with `none` playing the role of
pandas `NaN`; a dataframe is a `city` column (strings) together with named
numeric columns.  The external Prophet engine (`fit`, `predict`) is opaque
and is passed in as a parameter; everything written in the repository itself
(column arithmetic, grouping, rolling windows, fills, the per-city loop,
column selection and renaming) is translated directly.
-/

set_option autoImplicit false

namespace Outbreaks

/-- A pandas cell: `none` models `NaN`. -/
abbrev Cell := Option ℚ

/-- The present (non-`NaN`) values of a series, in order; pandas reductions
such as `sum` and `mean` skip `NaN`. -/
def presentVals (l : List Cell) : List ℚ := l.filterMap id

/-- The last present value of a series, used to state `ffill` semantics. -/
def lastP : List Cell → Cell
  | [] => none
  | a :: l =>
    match lastP l with
    | some v => some v
    | none => a

/-- The first present value of a series, used to state `bfill` semantics. -/
def firstP : List Cell → Cell
  | [] => none
  | a :: l =>
    match a with
    | some v => some v
    | none => firstP l

/-- The worker for `fillna(method=ffill)`: `acc` is the last present value
seen so far, and each `NaN` is replaced by it. -/
def ffillGo (acc : Cell) : List Cell → List Cell
  | [] => []
  | none :: l => acc :: ffillGo acc l
  | some v :: l => some v :: ffillGo (some v) l

/-- Column-wise forward fill, translating `fillna(method=ffill)` (line 111). -/
def ffill (xs : List Cell) : List Cell := ffillGo none xs

/-- Column-wise backward fill, translating `fillna(method=bfill)` (line 112):
each `NaN` is replaced by the next following present value. -/
def bfill : List Cell → List Cell
  | [] => []
  | some v :: l => some v :: bfill l
  | none :: l => firstP l :: bfill l

/-- The missing-value repair of `create_weather_features`: forward fill, then
backward fill, applied to one column over the full dataset ordering. -/
def fillBoth (xs : List Cell) : List Cell := bfill (ffill xs)

theorem length_ffillGo (acc : Cell) (xs : List Cell) :
    (ffillGo acc xs).length = xs.length := by
  induction xs generalizing acc with
  | nil => rfl
  | cons a l ih => cases a <;> simp [ffillGo, ih]

theorem length_bfill (xs : List Cell) : (bfill xs).length = xs.length := by
  induction xs with
  | nil => rfl
  | cons a l ih => cases a <;> simp [bfill, ih]

theorem length_fillBoth (xs : List Cell) : (fillBoth xs).length = xs.length := by
  rw [fillBoth, length_bfill, ffill, length_ffillGo]

theorem ffillGo_getD (xs : List Cell) (acc : Cell) (i : Nat) (h : i < xs.length) :
    (ffillGo acc xs).getD i none =
      match lastP (xs.take (i + 1)) with
      | some v => some v
      | none => acc := by
  induction xs generalizing acc i with
  | nil => simp at h
  | cons a l ih =>
    cases i with
    | zero =>
      cases a with
      | none => simp [ffillGo, lastP]
      | some v => simp [ffillGo, lastP]
    | succ j =>
      have hj : j < l.length := by simpa using h
      cases a with
      | none =>
        simp only [ffillGo, List.getD_cons_succ, List.take_succ_cons]
        rw [ih acc j hj]
        cases hl : lastP (l.take (j + 1)) <;> simp [lastP, hl]
      | some v =>
        simp only [ffillGo, List.getD_cons_succ, List.take_succ_cons]
        rw [ih (some v) j hj]
        cases hl : lastP (l.take (j + 1)) <;> simp [lastP, hl]

theorem ffill_getD (xs : List Cell) (i : Nat) (h : i < xs.length) :
    (ffill xs).getD i none = lastP (xs.take (i + 1)) := by
  rw [ffill, ffillGo_getD xs none i h]
  cases lastP (xs.take (i + 1)) <;> rfl

theorem bfill_getD (xs : List Cell) (i : Nat) (h : i < xs.length) :
    (bfill xs).getD i none =
      match xs.getD i none with
      | some v => some v
      | none => firstP (xs.drop (i + 1)) := by
  induction xs generalizing i with
  | nil => simp at h
  | cons a l ih =>
    cases i with
    | zero => cases a <;> simp [bfill, firstP]
    | succ j =>
      have hj : j < l.length := by simpa using h
      cases a <;> simpa [bfill] using ih j hj

theorem ffillGo_drop (xs : List Cell) (acc : Cell) (k : Nat) :
    (ffillGo acc xs).drop k =
      ffillGo
        (match lastP (xs.take k) with
         | some v => some v
         | none => acc) (xs.drop k) := by
  induction xs generalizing acc k with
  | nil => simp [ffillGo]
  | cons a l ih =>
    cases k with
    | zero => simp [lastP]
    | succ j =>
      cases a with
      | none =>
        simp only [ffillGo, List.drop_succ_cons, List.take_succ_cons]
        rw [ih acc j]
        cases hl : lastP (l.take j) <;> simp [lastP, hl]
      | some v =>
        simp only [ffillGo, List.drop_succ_cons, List.take_succ_cons]
        rw [ih (some v) j]
        cases hl : lastP (l.take j) <;> simp [lastP, hl]

theorem firstP_ffill (xs : List Cell) : firstP (ffillGo none xs) = firstP xs := by
  induction xs with
  | nil => rfl
  | cons a l ih => cases a <;> simp [ffillGo, firstP, ih]

/-- Cell-level semantics of the forward-then-backward fill: a cell keeps its
value when present; a missing cell receives the nearest preceding present
value of the column, or, when the whole prefix is missing, the nearest
following present value. -/
theorem fillBoth_getD (xs : List Cell) (i : Nat) (h : i < xs.length) :
    (fillBoth xs).getD i none =
      match lastP (xs.take (i + 1)) with
      | some v => some v
      | none => firstP (xs.drop (i + 1)) := by
  have hlen : i < (ffill xs).length := by
    rw [ffill, length_ffillGo]; exact h
  rw [fillBoth, bfill_getD _ _ hlen, ffill_getD xs i h]
  cases hl : lastP (xs.take (i + 1)) with
  | some v => rfl
  | none =>
    have hd : (ffill xs).drop (i + 1) = ffillGo none (xs.drop (i + 1)) := by
      rw [ffill, ffillGo_drop, hl]
    rw [hd, firstP_ffill]

theorem lastP_eq_none_iff (xs : List Cell) : lastP xs = none ↔ ∀ x ∈ xs, x = none := by
  induction xs with
  | nil => simp [lastP]
  | cons a l ih =>
    cases hl : lastP l with
    | some v =>
      simp only [lastP, hl]
      constructor
      · intro h; exact absurd h (by simp)
      · intro h
        have : ∀ x ∈ l, x = none := fun x hx => h x (List.mem_cons_of_mem _ hx)
        rw [ih.mpr this] at hl; exact absurd hl (by simp)
    | none =>
      simp only [lastP, hl]
      constructor
      · intro h x hx
        rcases List.mem_cons.mp hx with rfl | hx'
        · exact h
        · exact ih.mp hl x hx'
      · intro h; exact h a (List.mem_cons_self a l)

theorem firstP_eq_none_iff (xs : List Cell) : firstP xs = none ↔ ∀ x ∈ xs, x = none := by
  induction xs with
  | nil => simp [firstP]
  | cons a l ih =>
    cases a with
    | some v =>
      simp only [firstP]
      constructor
      · intro h; exact absurd h (by simp)
      · intro h; exact absurd (h _ (List.mem_cons_self _ l)) (by simp)
    | none =>
      simp only [firstP]
      constructor
      · intro h x hx
        rcases List.mem_cons.mp hx with rfl | hx'
        · rfl
        · exact ih.mp h x hx'
      · intro h; exact ih.mpr fun x hx => h x (List.mem_cons_of_mem _ hx)

/-- A column with at least one present value is fully present after the
forward-then-backward fill. -/
theorem fillBoth_isSome (xs : List Cell) (hx : ∃ x ∈ xs, x.isSome = true)
    (i : Nat) (h : i < xs.length) : ((fillBoth xs).getD i none).isSome = true := by
  rw [fillBoth_getD xs i h]
  cases hl : lastP (xs.take (i + 1)) with
  | some v => rfl
  | none =>
    cases hf : firstP (xs.drop (i + 1)) with
    | some v => rfl
    | none =>
      obtain ⟨x, hmem, hs⟩ := hx
      have hall : x = none := by
        rw [← List.take_append_drop (i + 1) xs] at hmem
        rcases List.mem_append.mp hmem with hm | hm
        · exact (lastP_eq_none_iff _).mp hl x hm
        · exact (firstP_eq_none_iff _).mp hf x hm
      rw [hall] at hs; exact absurd hs (by simp)

/-- A column with no present value is unchanged-missing after the fill. -/
theorem fillBoth_all_none (xs : List Cell) (hx : ∀ x ∈ xs, x = none)
    (i : Nat) : (fillBoth xs).getD i none = none := by
  by_cases h : i < xs.length
  · rw [fillBoth_getD xs i h]
    have h1 : lastP (xs.take (i + 1)) = none :=
      (lastP_eq_none_iff _).mpr fun x hm => hx x (List.mem_of_mem_take hm)
    have h2 : firstP (xs.drop (i + 1)) = none :=
      (firstP_eq_none_iff _).mpr fun x hm => hx x (List.mem_of_mem_drop hm)
    rw [h1, h2]
  · rw [List.getD_eq_default]
    rw [length_fillBoth]; omega

/-- The trailing window of width at most `w` ending at position `i`, i.e. the
positions `max 0 (i + 1 - w) … i` that pandas `rolling(w)` looks at. -/
def windowSlice (xs : List Cell) (w i : Nat) : List Cell :=
  (xs.take (i + 1)).drop (i + 1 - w)

/-- The mean of a list of rationals. -/
def listMean (v : List ℚ) : ℚ := v.sum / v.length

/-- One cell of `rolling(w, min_periods=1).mean()`: the mean of the present
values of the trailing window, `NaN` when no value is present. -/
def rollingMeanCell (xs : List Cell) (w i : Nat) : Cell :=
  let v := presentVals (windowSlice xs w i)
  if v.length = 0 then none else some (listMean v)

/-- One cell of `rolling(w, min_periods=1).std()`, squared: the sample
variance (`ddof = 1`) of the present values of the trailing window.  With a
single observation pandas' sample standard deviation is `NaN`, hence `none`
here exactly when the source's std cell is `NaN`; omitting the final square
root keeps the definition inside `ℚ` and changes neither presence nor
per-city scoping, which is all the claims speak about. -/
def rollingVarCell (xs : List Cell) (w i : Nat) : Cell :=
  let v := presentVals (windowSlice xs w i)
  if v.length < 2 then none
  else some ((v.map (fun x => (x - listMean v) ^ 2)).sum / ((v.length : ℚ) - 1))

/-- `rolling(w, min_periods=1).mean()` over one city's series. -/
def rollingMean (w : Nat) (xs : List Cell) : List Cell :=
  (List.range xs.length).map (rollingMeanCell xs w)

/-- `rolling(w, min_periods=1).std()` over one city's series (squared cells,
see `rollingVarCell`). -/
def rollingStdSq (w : Nat) (xs : List Cell) : List Cell :=
  (List.range xs.length).map (rollingVarCell xs w)

/-- The city of row `i` of the frame. -/
def cityAt (cities : List String) (i : Nat) : String := cities.getD i ""

/-- The row positions belonging to city `c`, in frame order. -/
def cityIdx (cities : List String) (c : String) : List Nat :=
  (List.range cities.length).filter (fun j => cityAt cities j == c)

/-- One column restricted to city `c`'s rows in frame order: the series that
`groupby('city')[col]` hands to the window function for group `c`. -/
def citySeries (cities : List String) (vals : List Cell) (c : String) : List Cell :=
  (cityIdx cities c).map (fun j => vals.getD j none)

/-- The rank of row `i` inside its own city's series: how many earlier rows
share its city. -/
def cityRank (cities : List String) (i : Nat) : Nat :=
  ((List.range i).filter (fun j => cityAt cities j == cityAt cities i)).length

/-- `groupby('city')[col].transform(f)`: apply `f` to each city's series and
scatter the results back to the original row positions. -/
def transformByCity (f : List Cell → List Cell) (cities : List String) (vals : List Cell) :
    List Cell :=
  (List.range cities.length).map (fun i =>
    (f (citySeries cities vals (cityAt cities i))).getD (cityRank cities i) none)

/-- Boolean comparison `b < x` on a cell; pandas comparisons with `NaN` are
`False`. -/
def cellGT (x : Cell) (b : ℚ) : Bool :=
  match x with
  | some v => decide (b < v)
  | none => false

/-- Boolean comparison `b ≤ x` on a cell (`NaN` compares `False`). -/
def cellGE (x : Cell) (b : ℚ) : Bool :=
  match x with
  | some v => decide (b ≤ v)
  | none => false

/-- Boolean comparison `x ≤ b` on a cell (`NaN` compares `False`). -/
def cellLE (x : Cell) (b : ℚ) : Bool :=
  match x with
  | some v => decide (v ≤ b)
  | none => false

/-- One cell of `optimal_mosquito_temp` (lines 83–86): `1` iff
`25 ≤ temperature_2m_max ≤ 35`, else `0`; never missing. -/
def optimalMosquitoTemp (tmax : Cell) : Cell :=
  some (if cellGE tmax 25 && cellLE tmax 35 then 1 else 0)

/-- One cell of `breeding_conditions` (lines 88–91): `1` iff
`precipitation_sum > 0` and `temperature_2m_min > 20`, else `0`; never
missing. -/
def breedingConditions (precip tmin : Cell) : Cell :=
  some (if cellGT precip 0 && cellGT tmin 20 then 1 else 0)

/-- `shift(lag)` followed by `fillna(0)` on one city's series
(lines 96–98). -/
def shiftThenFill0 (n : Nat) (xs : List Cell) : List Cell :=
  (List.range xs.length).map (fun i =>
    if i < n then some 0
    else
      match xs.getD (i - n) none with
      | some v => some v
      | none => some 0)

theorem getD_range_map {α : Type} (g : Nat → α) (n i : Nat) (d : α) (h : i < n) :
    ((List.range n).map g).getD i d = g i := by
  have h2 : i < ((List.range n).map g).length := by simpa using h
  rw [List.getD_eq_getElem _ _ h2, List.getElem_map, List.getElem_range]

theorem transformByCity_getD (f : List Cell → List Cell) (cities : List String)
    (vals : List Cell) (i : Nat) (h : i < cities.length) :
    (transformByCity f cities vals).getD i none =
      (f (citySeries cities vals (cityAt cities i))).getD (cityRank cities i) none := by
  rw [transformByCity, getD_range_map _ _ _ _ h]

theorem length_transformByCity (f : List Cell → List Cell) (cities : List String)
    (vals : List Cell) : (transformByCity f cities vals).length = cities.length := by
  simp [transformByCity]

/-- A row's rank in its own city is a valid index of that city's series. -/
theorem cityRank_lt_length (cities : List String) (vals : List Cell) (i : Nat)
    (h : i < cities.length) :
    cityRank cities i < (citySeries cities vals (cityAt cities i)).length := by
  have hlen : (citySeries cities vals (cityAt cities i)).length =
      (List.range cities.length).countP (fun j => cityAt cities j == cityAt cities i) := by
    rw [citySeries, List.length_map, cityIdx, List.countP_eq_length_filter]
  have hrank : cityRank cities i =
      (List.range i).countP (fun j => cityAt cities j == cityAt cities i) := by
    rw [cityRank, List.countP_eq_length_filter]
  have hsucc : (List.range (i + 1)).countP (fun j => cityAt cities j == cityAt cities i) =
      (List.range i).countP (fun j => cityAt cities j == cityAt cities i) + 1 := by
    rw [List.range_succ, List.countP_append]; simp
  have hle : (List.range (i + 1)).countP (fun j => cityAt cities j == cityAt cities i) ≤
      (List.range cities.length).countP (fun j => cityAt cities j == cityAt cities i) :=
    (List.range_sublist.mpr h).countP_le _
  omega

theorem length_rollingMean (w : Nat) (xs : List Cell) :
    (rollingMean w xs).length = xs.length := by simp [rollingMean]

theorem length_rollingStdSq (w : Nat) (xs : List Cell) :
    (rollingStdSq w xs).length = xs.length := by simp [rollingStdSq]

theorem length_shiftThenFill0 (n : Nat) (xs : List Cell) :
    (shiftThenFill0 n xs).length = xs.length := by simp [shiftThenFill0]

theorem getD_mem {α : Type} (l : List α) (i : Nat) (d : α) (h : i < l.length) :
    l.getD i d ∈ l := by
  rw [List.getD_eq_getElem _ _ h]
  exact List.getElem_mem _

/-- The row's own value is inside its trailing window (any width `≥ 1`). -/
theorem self_mem_windowSlice (s : List Cell) (w r : Nat) (hw : 1 ≤ w)
    (hr : r < s.length) : s.getD r none ∈ windowSlice s w r := by
  have htake : (s.take (r + 1)).length = r + 1 := by
    rw [List.length_take]; omega
  have hlt : r - (r + 1 - w) < ((s.take (r + 1)).drop (r + 1 - w)).length := by
    rw [List.length_drop, htake]; omega
  have hidx : ((s.take (r + 1)).drop (r + 1 - w)).getD (r - (r + 1 - w)) none
      = s.getD r none := by
    rw [List.getD_eq_getElem _ _ hlt, List.getElem_drop]
    have h1 : r + 1 - w + (r - (r + 1 - w)) = r := by omega
    have h2 : ∀ (m : Nat) (hm : m < (s.take (r + 1)).length), m = r →
        (s.take (r + 1)).get ⟨m, hm⟩ = s.getD r none := by
      intro m hm hmr
      subst hmr
      rw [List.get_eq_getElem, List.getElem_take]
      rw [List.getD_eq_getElem _ _ hr]
    exact h2 _ _ h1
  have hmem : s.getD r none ∈ (s.take (r + 1)).drop (r + 1 - w) := by
    rw [← hidx]
    exact getD_mem _ _ _ hlt
  exact hmem


/-- The modelled dataframe of `FeatureEngineer`: the `city` column (strings,
required by every `groupby('city')`) plus named numeric columns.  The `date`
column is never numerically used by `create_weather_features`, so when
present it is carried like any other excluded column. -/
structure Df where
  city : List String
  cols : List (String × List Cell)

/-- Column lookup `df[name]`, `none` when the column is absent. -/
def getCol (df : Df) (name : String) : Option (List Cell) := df.cols.lookup name

/-- Column assignment `df[name] = vals`: replace an existing column in place,
else append the new column on the right. -/
def setCol (df : Df) (name : String) (vals : List Cell) : Df :=
  if df.cols.any (fun p => p.1 == name) then
    { df with cols := df.cols.map (fun p => if p.1 == name then (name, vals) else p) }
  else
    { df with cols := df.cols ++ [(name, vals)] }

/-- The default weather columns of `create_weather_features` (lines 64–67). -/
def weather_cols : List String :=
  ["temperature_2m_max", "temperature_2m_min", "precipitation_sum", "wind_speed_10m_max"]

/-- The rolling window sizes (line 70). -/
def windows : List Nat := [3, 7, 14]

/-- The lag offsets for `breeding_conditions` (line 94). -/
def lag_days : List Nat := [3, 7, 14]

/-- The context columns never filled and required non-missing at the end
(lines 102–106). -/
def exclude_columns : List String :=
  ["latitude", "longitude", "country", "country_id", "status", "occurrence_id",
   "vector", "source_type", "location_type", "city", "date"]

/-- The generated rolling-statistic column name, e.g.
`temperature_2m_max_3d_mean`. -/
def rollName (col : String) (w : Nat) (stat : String) : String :=
  col ++ "_" ++ toString w ++ "d_" ++ stat

/-- One iteration of the rolling-statistics loop (lines 71–80) for one
weather column: for each window size add the per-city rolling mean and
rolling std columns.  A missing weather column makes
`groupby('city')[col]` raise a `KeyError`. -/
def addRollingCol (df : Df) (col : String) : Except String Df :=
  match getCol df col with
  | none => Except.error ("KeyError: Column not found: " ++ col)
  | some vals =>
      Except.ok (windows.foldl (fun d w =>
        setCol (setCol d (rollName col w "mean") (transformByCity (rollingMean w) df.city vals))
          (rollName col w "std") (transformByCity (rollingStdSq w) df.city vals)) df)

/-- Direct column access `df[name]`, raising `KeyError` when absent. -/
def requireCol (df : Df) (name : String) : Except String (List Cell) :=
  match getCol df name with
  | some v => Except.ok v
  | none => Except.error ("KeyError: " ++ name)

/-- One column under the repair of lines 108–112: a column in
`exclude_columns` is untouched, any other column is forward- then
backward-filled. -/
def fillColEntry (p : String × List Cell) : String × List Cell :=
  if exclude_columns.contains p.1 then p else (p.1, fillBoth p.2)

/-- The missing-value repair of lines 108–112: forward fill then backward
fill every column whose name is not in `exclude_columns`, across the full
dataset ordering (not per city). -/
def applyGlobalFill (df : Df) : Df :=
  { df with cols := df.cols.map fillColEntry }

/-- Whether row `i` survives `dropna(subset=exclude_columns)`: every context
column of the frame is non-missing there (the built-in `city` component is
total, hence never drops a row). -/
def keepRow (df : Df) (i : Nat) : Bool :=
  (df.cols.filter (fun p => exclude_columns.contains p.1)).all
    (fun p => (p.2.getD i none).isSome)

/-- The `exclude_columns` labels absent from the frame, `city` excepted
(the `city` column is carried structurally and is always present).  Pandas
`dropna(subset=...)` raises a `KeyError` when this list is non-empty. -/
def missingSubset (df : Df) : List String :=
  exclude_columns.filter (fun n => !(n == "city") && (getCol df n).isNone)

/-- `dropna(subset=exclude_columns)` of line 115: a subset label absent from
the frame raises a `KeyError`, as pandas does; otherwise the rows with a
missing value in some context column are dropped. -/
def dropnaRow (df : Df) : Except String Df :=
  match missingSubset df with
  | n :: _ => Except.error ("KeyError: " ++ n ++ " not in index")
  | [] => Except.ok
      { city := ((List.range df.city.length).filter (keepRow df)).map
          (fun i => cityAt df.city i),
        cols := df.cols.map (fun p =>
          (p.1, ((List.range df.city.length).filter (keepRow df)).map
            (fun i => p.2.getD i none))) }

/-- `FeatureEngineer.create_weather_features` (lines 54–116): rolling
statistics per weather column, the two binary indicators, the per-city lag
features, the global forward/backward fill, and the final context-column
row filter. -/
def create_weather_features (df : Df) : Except String Df := do
  let dfR ← weather_cols.foldlM addRollingCol df
  let tmax ← requireCol dfR "temperature_2m_max"
  let dfO := setCol dfR "optimal_mosquito_temp" (tmax.map optimalMosquitoTemp)
  let precip ← requireCol dfO "precipitation_sum"
  let tmin ← requireCol dfO "temperature_2m_min"
  let breeding := List.zipWith breedingConditions precip tmin
  let dfB := setCol dfO "breeding_conditions" breeding
  let dfL := lag_days.foldl (fun d lag =>
      setCol d ("breeding_conditions_lag_" ++ toString lag)
        (transformByCity (shiftThenFill0 lag) dfB.city breeding)) dfB
  dropnaRow (applyGlobalFill dfL)

theorem setCol_city (d : Df) (n : String) (v : List Cell) : (setCol d n v).city = d.city := by
  rw [setCol]; split <;> rfl

theorem lookup_cons_beq_true {β : Type} {m k : String} {b : β} {l : List (String × β)}
    (h : (m == k) = true) : List.lookup m ((k, b) :: l) = some b := by
  rw [List.lookup, h]

theorem lookup_cons_beq_false {β : Type} {m k : String} {b : β} {l : List (String × β)}
    (h : (m == k) = false) : List.lookup m ((k, b) :: l) = List.lookup m l := by
  rw [List.lookup, h]

theorem replace_entry_true {k n : String} {b v : List Cell} (h : (k == n) = true) :
    (if k == n then ((n, v) : String × List Cell) else (k, b)) = (n, v) := if_pos h

theorem replace_entry_false {k n : String} {b v : List Cell} (h : (k == n) = false) :
    (if k == n then ((n, v) : String × List Cell) else (k, b)) = (k, b) :=
  if_neg (by simp [h])

theorem lookup_map_replace (l : List (String × List Cell)) (n m : String)
    (v : List Cell) (h : m ≠ n) :
    (l.map (fun p => if p.1 == n then (n, v) else p)).lookup m = l.lookup m := by
  induction l with
  | nil => rfl
  | cons p l ih =>
    obtain ⟨k, b⟩ := p
    rw [List.map_cons]
    by_cases hk : k = n
    · subst hk
      rw [replace_entry_true (by simp)]
      rw [lookup_cons_beq_false (by simp [h]), lookup_cons_beq_false (by simp [h])]
      exact ih
    · rw [replace_entry_false (by simp [hk])]
      by_cases hm : m = k
      · subst hm
        rw [lookup_cons_beq_true (by simp), lookup_cons_beq_true (by simp)]
      · rw [lookup_cons_beq_false (by simp [hm]), lookup_cons_beq_false (by simp [hm])]
        exact ih

theorem lookup_append_singleton_ne (l : List (String × List Cell)) (n m : String)
    (v : List Cell) (h : m ≠ n) :
    (l ++ [(n, v)]).lookup m = l.lookup m := by
  induction l with
  | nil =>
    rw [List.nil_append, lookup_cons_beq_false (by simp [h])]
  | cons p l ih =>
    obtain ⟨k, b⟩ := p
    rw [List.cons_append]
    by_cases hm : m = k
    · subst hm
      rw [lookup_cons_beq_true (by simp), lookup_cons_beq_true (by simp)]
    · rw [lookup_cons_beq_false (by simp [hm]), lookup_cons_beq_false (by simp [hm])]
      exact ih

theorem lookup_map_replace_self (l : List (String × List Cell)) (n : String)
    (v : List Cell) (hany : l.any (fun p => p.1 == n) = true) :
    (l.map (fun p => if p.1 == n then (n, v) else p)).lookup n = some v := by
  induction l with
  | nil => simp at hany
  | cons p l ih =>
    obtain ⟨k, b⟩ := p
    rw [List.map_cons]
    by_cases hk : k = n
    · subst hk
      rw [replace_entry_true (by simp)]
      exact lookup_cons_beq_true (by simp)
    · rw [replace_entry_false (by simp [hk])]
      rw [lookup_cons_beq_false (by simp [Ne.symm hk])]
      refine ih ?_
      simpa [List.any_cons, hk] using hany

theorem lookup_append_singleton_self (l : List (String × List Cell)) (n : String)
    (v : List Cell) (hnone : l.any (fun p => p.1 == n) = false) :
    (l ++ [(n, v)]).lookup n = some v := by
  induction l with
  | nil => exact lookup_cons_beq_true (by simp)
  | cons p l ih =>
    obtain ⟨k, b⟩ := p
    simp only [List.any_cons, Bool.or_eq_false_iff] at hnone
    rw [List.cons_append]
    rw [lookup_cons_beq_false (by simpa using (Ne.symm (by simpa using hnone.1)))]
    exact ih hnone.2

theorem getCol_setCol_self (d : Df) (n : String) (v : List Cell) :
    getCol (setCol d n v) n = some v := by
  rw [getCol, setCol]
  by_cases hany : d.cols.any (fun p => p.1 == n)
  · rw [if_pos hany]
    exact lookup_map_replace_self d.cols n v hany
  · rw [if_neg hany]
    exact lookup_append_singleton_self d.cols n v (Bool.eq_false_iff.mpr hany)

theorem getCol_setCol_ne (d : Df) (n m : String) (v : List Cell) (h : m ≠ n) :
    getCol (setCol d n v) m = getCol d m := by
  rw [getCol, getCol, setCol]
  by_cases hany : d.cols.any (fun p => p.1 == n)
  · rw [if_pos hany]
    exact lookup_map_replace d.cols n m v h
  · rw [if_neg hany]
    exact lookup_append_singleton_ne d.cols n m v h

theorem lookup_mem_of_eq_some {β : Type} (l : List (String × β)) (m : String) (v : β)
    (h : l.lookup m = some v) : (m, v) ∈ l := by
  induction l with
  | nil => simp [List.lookup] at h
  | cons p l ih =>
    obtain ⟨k, b⟩ := p
    by_cases hk : m = k
    · subst hk
      rw [lookup_cons_beq_true (by simp)] at h
      simp only [Option.some.injEq] at h
      subst h
      exact List.mem_cons_self _ _
    · rw [lookup_cons_beq_false (by simp [hk])] at h
      exact List.mem_cons_of_mem _ (ih h)

theorem fillColEntry_excluded {k : String} {b : List Cell}
    (h : exclude_columns.contains k = true) : fillColEntry (k, b) = (k, b) :=
  if_pos h

theorem fillColEntry_filled {k : String} {b : List Cell}
    (h : exclude_columns.contains k = false) : fillColEntry (k, b) = (k, fillBoth b) :=
  if_neg (by simpa using h)

/-- Column lookup after the global fill: excluded columns are untouched and
all others are forward-then-backward filled. -/
theorem getCol_applyGlobalFill (df : Df) (n : String) :
    getCol (applyGlobalFill df) n =
      (getCol df n).map (fun c => if exclude_columns.contains n then c else fillBoth c) := by
  rw [getCol, getCol, applyGlobalFill]
  show (df.cols.map fillColEntry).lookup n = _
  induction df.cols with
  | nil => rfl
  | cons p l ih =>
    obtain ⟨k, b⟩ := p
    rw [List.map_cons]
    by_cases hk : n = k
    · subst hk
      by_cases he : exclude_columns.contains n = true
      · rw [fillColEntry_excluded he, lookup_cons_beq_true (by simp),
          lookup_cons_beq_true (by simp), Option.map_some', if_pos he]
      · have he' : exclude_columns.contains n = false := Bool.eq_false_iff.mpr he
        rw [fillColEntry_filled he', lookup_cons_beq_true (by simp),
          lookup_cons_beq_true (by simp), Option.map_some', if_neg he]
    · have hbe : (n == k) = false := by simp [hk]
      by_cases he : exclude_columns.contains k = true
      · rw [fillColEntry_excluded he, lookup_cons_beq_false hbe, lookup_cons_beq_false hbe]
        exact ih
      · rw [fillColEntry_filled (Bool.eq_false_iff.mpr he), lookup_cons_beq_false hbe,
          lookup_cons_beq_false hbe]
        exact ih

/-- Rectangularity: every column has exactly one cell per row. -/
def Wf (df : Df) : Prop := ∀ p ∈ df.cols, p.2.length = df.city.length

theorem wf_setCol {d : Df} (hd : Wf d) {v : List Cell} (hv : v.length = d.city.length)
    (n : String) : Wf (setCol d n v) := by
  intro p hp
  try rw [setCol_city d n v]
  rw [setCol] at hp
  by_cases hany : d.cols.any (fun q => q.1 == n)
  · rw [if_pos hany] at hp
    obtain ⟨q, hq, hqe⟩ := List.mem_map.mp hp
    by_cases hcond : q.1 == n
    · rw [if_pos hcond] at hqe
      subst hqe; exact hv
    · rw [if_neg hcond] at hqe
      subst hqe; exact hd q hq
  · rw [if_neg hany] at hp
    rcases List.mem_append.mp hp with hmem | hmem
    · exact hd p hmem
    · have hpv : p = (n, v) := by simpa using hmem
      subst hpv; exact hv

theorem wf_getCol {d : Df} (hd : Wf d) {n : String} {v : List Cell}
    (h : getCol d n = some v) : v.length = d.city.length :=
  hd (n, v) (lookup_mem_of_eq_some d.cols n v h)

/-- The `season` binning of `create_temporal_features` (lines 34–40):
`pd.cut(month, bins=[0, 5, 10, 12], labels=[Dry, Rainy, Dry], right=True)`,
each bin open below and closed above; a month outside every bin gets no
label (`NaN`). -/
def season (m : Nat) : Option String :=
  if 0 < m ∧ m ≤ 5 then some "Dry"
  else if 5 < m ∧ m ≤ 10 then some "Rainy"
  else if 10 < m ∧ m ≤ 12 then some "Dry"
  else none

/-- Lexicographic order on character lists, for the string order pandas uses
when sorting group keys. -/
def strLeData : List Char → List Char → Bool
  | [], _ => true
  | _ :: _, [] => false
  | a :: as, b :: bs => if a = b then strLeData as bs else decide (a < b)

/-- Lexicographic string order (code-point order, as pandas sorts). -/
def strLe (a b : String) : Bool := strLeData a.data b.data

/-- The proposition form of `strLe`, for `insertionSort`. -/
def strLeP (a b : String) : Prop := strLe a b = true

instance : DecidableRel strLeP := fun a b => inferInstanceAs (Decidable (strLe a b = true))

/-- The lexicographic `(date, city)` key order of `groupby([date, city])`. -/
def lexLe (p q : Nat × String) : Prop :=
  (decide (p.1 < q.1) || (decide (p.1 = q.1) && strLe p.2 q.2)) = true

instance : DecidableRel lexLe := fun p q =>
  inferInstanceAs (Decidable ((decide (p.1 < q.1) || (decide (p.1 = q.1) && strLe p.2 q.2)) = true))

/-- The dataframe handed to `DengueProphetForecaster`: `date`, `city`, the
target column and the remaining columns.  Dates are day numbers. -/
structure PFrame where
  dates : List Nat
  cities : List String
  target : List Cell
  others : List (String × List Cell)

/-- The row positions of group `(d, c)` of `groupby([date, city])`, in input
order. -/
def keyIdxs (f : PFrame) (d : Nat) (c : String) : List Nat :=
  (List.range f.cities.length).filter
    (fun i => (f.dates.getD i 0 == d) && (f.cities.getD i "" == c))

/-- One column restricted to the rows of a group. -/
def groupVals (xs : List Cell) (idxs : List Nat) : List Cell :=
  idxs.map (fun i => xs.getD i none)

/-- Pandas `sum` aggregation: the present values summed (`NaN` skipped, an
all-missing group sums to `0`). -/
def sumPresent (xs : List Cell) : ℚ := (presentVals xs).sum

/-- One city's Prophet frame after `prepare_data`: the `ds` dates, the `y`
target and the regressor (all remaining) columns. -/
structure CityFrame where
  ds : List Nat
  y : List ℚ
  regs : List (String × List Cell)

instance : Inhabited CityFrame := ⟨⟨[], [], []⟩⟩

/-- The sorted, de-duplicated `(date, city)` keys of
`groupby([date, city])`. -/
def aggKeys (f : PFrame) : List (Nat × String) :=
  ((f.dates.zip f.cities).dedup).insertionSort lexLe

/-- The distinct city values, in the sorted order `groupby('city')` uses. -/
def cityNames (f : PFrame) : List String :=
  (((aggKeys f).map Prod.snd).dedup).insertionSort strLeP

/-- The aggregated keys belonging to one city, in sorted-key order (so in
ascending date order for that city). -/
def cityKeys (f : PFrame) (c : String) : List (Nat × String) :=
  (aggKeys f).filter (fun k => k.2 == c)

/-- One city's aggregated frame: its `(date, city)` keys in sorted order,
the target reduced by `sum`, every other column reduced by pandas `first`
(the first present value of the group, in input order), with `date` renamed
to `ds` and the target to `y`. -/
def cityFrameFor (f : PFrame) (c : String) : CityFrame :=
  { ds := (cityKeys f c).map Prod.fst,
    y := (cityKeys f c).map (fun k => sumPresent (groupVals f.target (keyIdxs f k.1 k.2))),
    regs := f.others.map (fun p =>
      (p.1, (cityKeys f c).map (fun k => firstP (groupVals p.2 (keyIdxs f k.1 k.2))))) }

/-- `DengueProphetForecaster.prepare_data` (lines 14–29): aggregate by
`(date, city)` — the target by summation, every other column by pandas
`first` — then split by city into per-city Prophet frames. -/
def prepare_data (f : PFrame) : List (String × CityFrame) :=
  (cityNames f).map (fun c => (c, cityFrameFor f c))

/-- `Prophet.make_future_dataframe(periods)` with history included: the
(unique, sorted) historical dates followed by `periods` consecutive days
after the greatest historical date. -/
def make_future_dataframe (hist : List Nat) (periods : Nat) : List Nat :=
  hist ++ (List.range periods).map (fun k => hist.foldr max 0 + (k + 1))

/-- Lines 54–56 of the forecaster: extend each regressor into the future
frame by repeating its last historical value (`iloc[-1]`) over the whole
future index; a regressor absent from the columns is skipped (the
`if regressor in prophet_df.columns` guard); `iloc[-1]` on an empty column
raises. -/
def buildFutureRegs (regs : List (String × List Cell)) (futLen : Nat) :
    List String → Except String (List (String × List Cell))
  | [] => Except.ok []
  | r :: rest =>
      match regs.lookup r with
      | none => buildFutureRegs regs futLen rest
      | some xs =>
          match xs.getLast? with
          | none => Except.error ("IndexError: empty regressor column " ++ r)
          | some lastv => do
              let tail ← buildFutureRegs regs futLen rest
              Except.ok ((r, List.replicate futLen lastv) :: tail)

/-- The default regressor list of `train_prophet_model` (line 45). -/
def default_regressors : List String :=
  ["temperature_2m_max", "precipitation_sum", "wind_speed_10m_max"]

/-- `train_prophet_model` (lines 31–59), with the Prophet engine opaque:
`fitE` models constructing the `Prophet` model, registering the present
regressors and calling `fit` (it may raise); `predictE` models `predict`,
returning `(yhat, yhat_lower, yhat_upper)` per future row.  The function
returns the future index together with the predictions. -/
def train_prophet_model {M : Type} (fitE : CityFrame → List String → Except String M)
    (predictE : M → List Nat → List (String × List Cell) → List (ℚ × ℚ × ℚ))
    (cf : CityFrame) (periods : Nat) (regressors : List String) :
    Except String (List Nat × List (ℚ × ℚ × ℚ)) := do
  let m ← fitE cf (regressors.filter (fun r => (cf.regs.lookup r).isSome))
  let fut := make_future_dataframe cf.ds periods
  let futRegs ← buildFutureRegs cf.regs fut.length regressors
  Except.ok (fut, predictE m fut futRegs)

/-- One row of the combined forecast table:
`(date, forecasted_arbovirus_cases, yhat_lower, yhat_upper, city)`. -/
abbrev FRow := Nat × ℚ × ℚ × ℚ × String

/-- The rename of line 77: only `ds` and `yhat` change name. -/
def renameMap (s : String) : String :=
  if s == "ds" then "date"
  else if s == "yhat" then "forecasted_arbovirus_cases"
  else s

/-- The column names of the combined forecast table: the selected Prophet
columns of line 75, the `city` column added on line 76, through the rename
of line 77. -/
def forecast_output_columns : List String :=
  (["ds", "yhat", "yhat_lower", "yhat_upper"] ++ ["city"]).map renameMap

/-- One city's rows of the combined table (lines 75–77): the future dates
zipped with the predictions, tagged with the city. -/
def cityBlock (c : String) (fut : List Nat) (preds : List (ℚ × ℚ × ℚ)) : List FRow :=
  (fut.zip preds).map (fun p => (p.1, p.2.1, p.2.2.1, p.2.2.2, c))

/-- The per-city loop of `generate_forecast_dataframe` (lines 68–79); there
is no handler, so a failing city propagates its error. -/
def forecastCityRows {M : Type} (fitE : CityFrame → List String → Except String M)
    (predictE : M → List Nat → List (String × List Cell) → List (ℚ × ℚ × ℚ))
    (periods : Nat) : List (String × CityFrame) → Except String (List FRow)
  | [] => Except.ok []
  | (c, cf) :: rest => do
      let fp ← train_prophet_model fitE predictE cf periods default_regressors
      let tail ← forecastCityRows fitE predictE periods rest
      Except.ok (cityBlock c fp.1 fp.2 ++ tail)

/-- `generate_forecast_dataframe` (lines 61–82): aggregate, forecast every
city with the default regressors, and concatenate the per-city tables. -/
def generate_forecast_dataframe {M : Type}
    (fitE : CityFrame → List String → Except String M)
    (predictE : M → List Nat → List (String × List Cell) → List (ℚ × ℚ × ℚ))
    (f : PFrame) (periods : Nat) : Except String (List String × List FRow) := do
  let rows ← forecastCityRows fitE predictE periods (prepare_data f)
  Except.ok (forecast_output_columns, rows)

/-- Claim C9: the season label assigned by the temporal feature builder is a
function of the month alone — months 1–5 map to Dry, months 6–10 to Rainy
and months 11–12 to Dry, each `pd.cut` bin inclusive on its upper edge. -/
theorem season_bins (m : Nat) :
    (1 ≤ m → m ≤ 5 → season m = some "Dry") ∧
    (6 ≤ m → m ≤ 10 → season m = some "Rainy") ∧
    (11 ≤ m → m ≤ 12 → season m = some "Dry") := by
  refine ⟨fun h1 h2 => ?_, fun h1 h2 => ?_, fun h1 h2 => ?_⟩ <;>
    · rw [season]
      split_ifs <;> first | rfl | omega

/-- The C9 theorem applied at months 5, 10 and 12, the upper bin edges. -/
theorem season_bins_witness :
    season 5 = some "Dry" ∧ season 10 = some "Rainy" ∧ season 12 = some "Dry" :=
  ⟨(season_bins 5).1 (by decide) (by decide),
   (season_bins 10).2.1 (by decide) (by decide),
   (season_bins 12).2.2 (by decide) (by decide)⟩

/-- Claim C6: for every lag `N ∈ {3, 7, 14}`, the cell of
`breeding_conditions_lag_N` at a row of in-city rank `r` equals the city's
own series value at rank `r − N`, and `0` (not missing) when `r < N` —
`shift(N)` within `groupby('city')` followed by `fillna(0)`.  Stated for a
series whose values are all present, which `breeding_conditions` always is
(see `breedingConditions_isSome`). -/
theorem lag_feature_spec (n : Nat) (_hn : n ∈ lag_days) (cities : List String)
    (vals : List Cell) (i : Nat) (hi : i < cities.length)
    (hall : ∀ x ∈ citySeries cities vals (cityAt cities i), x.isSome = true) :
    (transformByCity (shiftThenFill0 n) cities vals).getD i none =
      if cityRank cities i < n then some 0
      else (citySeries cities vals (cityAt cities i)).getD (cityRank cities i - n) none := by
  have hr : cityRank cities i < (citySeries cities vals (cityAt cities i)).length :=
    cityRank_lt_length cities vals i hi
  rw [transformByCity_getD _ _ _ _ hi, shiftThenFill0, getD_range_map _ _ _ _ hr]
  by_cases hcase : cityRank cities i < n
  · rw [if_pos hcase, if_pos hcase]
  · rw [if_neg hcase, if_neg hcase]
    have hlt : cityRank cities i - n < (citySeries cities vals (cityAt cities i)).length :=
      lt_of_le_of_lt (Nat.sub_le _ _) hr
    have hmem : (citySeries cities vals (cityAt cities i)).getD (cityRank cities i - n) none
        ∈ citySeries cities vals (cityAt cities i) := by
      rw [List.getD_eq_getElem _ _ hlt]
      exact List.getElem_mem _
    have hsome := hall _ hmem
    cases hx : (citySeries cities vals (cityAt cities i)).getD (cityRank cities i - n) none with
    | none => rw [hx] at hsome; exact absurd hsome (by simp)
    | some v => rfl

/-- The `breeding_conditions` indicator is never missing, discharging the
presence hypothesis of the C6 theorem for the real lag input. -/
theorem breedingConditions_isSome (precip tmin : Cell) :
    (breedingConditions precip tmin).isSome = true := rfl

/-- The C6 theorem applied to a concrete two-city frame at lag 3: the last
row of city A has rank 3, so its lag-3 cell is A's value at rank 0. -/
theorem lag_feature_spec_witness :
    (transformByCity (shiftThenFill0 3) ["A", "B", "A", "A", "A"]
        [some 1, some 0, some 0, some 1, some 0]).getD 4 none =
      if cityRank ["A", "B", "A", "A", "A"] 4 < 3 then some 0
      else (citySeries ["A", "B", "A", "A", "A"]
          [some 1, some 0, some 0, some 1, some 0]
          (cityAt ["A", "B", "A", "A", "A"] 4)).getD
        (cityRank ["A", "B", "A", "A", "A"] 4 - 3) none :=
  lag_feature_spec 3 (by decide) _ _ 4 (by decide) (by decide)

/-- Claim C4 (amended): for each window `w ∈ {3, 7, 14}` the rolling cells of
a row are computed from its own city's series only — the cell at in-city
rank `r` is the statistic of that series' trailing window at `r`, so no
other city's rows can affect it — and with `min_periods=1` the rolling mean
cell receives a value whenever the row's own value is present; but the
claim's "every rolling-statistic cell receives a value" fails for the std:
at the first row of every city's series the sample standard deviation of
the single observation is `NaN`, so that cell is missing
(see `rolling_std_first_cell_missing`). -/
theorem rolling_per_city_spec (w : Nat) (hw : w ∈ windows) (cities : List String)
    (vals : List Cell) (i : Nat) (hi : i < cities.length) :
    ((transformByCity (rollingMean w) cities vals).getD i none =
        rollingMeanCell (citySeries cities vals (cityAt cities i)) w (cityRank cities i)) ∧
    ((transformByCity (rollingStdSq w) cities vals).getD i none =
        rollingVarCell (citySeries cities vals (cityAt cities i)) w (cityRank cities i)) ∧
    (((citySeries cities vals (cityAt cities i)).getD (cityRank cities i) none).isSome = true →
        ((transformByCity (rollingMean w) cities vals).getD i none).isSome = true) ∧
    (cityRank cities i = 0 →
        (transformByCity (rollingStdSq w) cities vals).getD i none = none) := by
  have hw' : w = 3 ∨ w = 7 ∨ w = 14 := by simpa [windows] using hw
  have hw1 : 1 ≤ w := by rcases hw' with rfl | rfl | rfl <;> omega
  have hr := cityRank_lt_length cities vals i hi
  have h1 : (transformByCity (rollingMean w) cities vals).getD i none =
      rollingMeanCell (citySeries cities vals (cityAt cities i)) w (cityRank cities i) := by
    rw [transformByCity_getD _ _ _ _ hi, rollingMean, getD_range_map _ _ _ _ hr]
  have h2 : (transformByCity (rollingStdSq w) cities vals).getD i none =
      rollingVarCell (citySeries cities vals (cityAt cities i)) w (cityRank cities i) := by
    rw [transformByCity_getD _ _ _ _ hi, rollingStdSq, getD_range_map _ _ _ _ hr]
  refine ⟨h1, h2, ?_, ?_⟩
  · intro hself
    obtain ⟨v, hv⟩ : ∃ v,
        (citySeries cities vals (cityAt cities i)).getD (cityRank cities i) none = some v := by
      cases hx : (citySeries cities vals (cityAt cities i)).getD (cityRank cities i) none with
      | none => rw [hx] at hself; exact absurd hself (by simp)
      | some v => exact ⟨v, rfl⟩
    have hmem : some v ∈ windowSlice (citySeries cities vals (cityAt cities i)) w
        (cityRank cities i) := by
      rw [← hv]
      exact self_mem_windowSlice _ w _ hw1 hr
    have hvmem : v ∈ presentVals (windowSlice (citySeries cities vals (cityAt cities i)) w
        (cityRank cities i)) :=
      List.mem_filterMap.mpr ⟨some v, hmem, rfl⟩
    have hne : (presentVals (windowSlice (citySeries cities vals (cityAt cities i)) w
        (cityRank cities i))).length ≠ 0 := by
      intro h0
      rw [List.length_eq_zero] at h0
      rw [h0] at hvmem
      simp at hvmem
    rw [h1]
    simp only [rollingMeanCell]
    rw [if_neg hne]
    rfl
  · intro h0
    rw [h2, h0]
    have hlen1 : (windowSlice (citySeries cities vals (cityAt cities i)) w 0).length ≤ 1 := by
      rw [windowSlice]
      have ht : ((citySeries cities vals (cityAt cities i)).take 1).length ≤ 1 := by
        rw [List.length_take]; omega
      calc (((citySeries cities vals (cityAt cities i)).take 1).drop (0 + 1 - w)).length
          ≤ ((citySeries cities vals (cityAt cities i)).take 1).length := by
            rw [List.length_drop]; omega
        _ ≤ 1 := ht
    have hfl := List.length_filterMap_le (fun x : Cell => x)
      (windowSlice (citySeries cities vals (cityAt cities i)) w 0)
    have hsmall : (presentVals (windowSlice (citySeries cities vals (cityAt cities i)) w
        0)).length < 2 := by
      rw [presentVals]
      have : (windowSlice (citySeries cities vals (cityAt cities i)) w 0).filterMap id
          = (windowSlice (citySeries cities vals (cityAt cities i)) w 0).filterMap
            (fun x : Cell => x) := rfl
      rw [this]
      omega
    simp only [rollingVarCell]
    rw [if_pos hsmall]

/-- C4 counterexample: even with `min_periods=1` the rolling std cell at a
city's first row receives no value, refuting the claim that every
rolling-statistic cell receives a value rather than being missing. -/
theorem rolling_std_first_cell_missing :
    transformByCity (rollingStdSq 3) ["A"] [some 1] = [none] := by decide

/-- The C4 theorem applied to a concrete two-city frame at window 3 and the
third row (city A, rank 1). -/
theorem rolling_per_city_spec_witness :
    ((transformByCity (rollingMean 3) ["A", "B", "A"] [some 1, some 5, some 3]).getD 2 none =
        rollingMeanCell (citySeries ["A", "B", "A"] [some 1, some 5, some 3]
          (cityAt ["A", "B", "A"] 2)) 3 (cityRank ["A", "B", "A"] 2)) ∧
    ((transformByCity (rollingStdSq 3) ["A", "B", "A"] [some 1, some 5, some 3]).getD 2 none =
        rollingVarCell (citySeries ["A", "B", "A"] [some 1, some 5, some 3]
          (cityAt ["A", "B", "A"] 2)) 3 (cityRank ["A", "B", "A"] 2)) ∧
    (((citySeries ["A", "B", "A"] [some 1, some 5, some 3]
          (cityAt ["A", "B", "A"] 2)).getD (cityRank ["A", "B", "A"] 2) none).isSome = true →
        ((transformByCity (rollingMean 3) ["A", "B", "A"]
          [some 1, some 5, some 3]).getD 2 none).isSome = true) ∧
    (cityRank ["A", "B", "A"] 2 = 0 →
        (transformByCity (rollingStdSq 3) ["A", "B", "A"]
          [some 1, some 5, some 3]).getD 2 none = none) :=
  rolling_per_city_spec 3 (by decide) ["A", "B", "A"] [some 1, some 5, some 3] 2 (by decide)

theorem ok_bind {α β : Type} (a : α) (f : α → Except String β) :
    (Except.ok a >>= f) = f a := rfl

theorem error_bind {α β : Type} (e : String) (f : α → Except String β) :
    ((Except.error e : Except String α) >>= f) = Except.error e := rfl

theorem pure_except {α : Type} (a : α) : (pure a : Except String α) = Except.ok a := rfl

/-- Adding the rolling columns for one weather column changes no column whose
name is none of the six generated names. -/
theorem getCol_addRollingCol {d d' : Df} {c : String} (m : String)
    (hok : addRollingCol d c = Except.ok d')
    (hm : ∀ w ∈ windows, m ≠ rollName c w "mean" ∧ m ≠ rollName c w "std") :
    getCol d' m = getCol d m := by
  rw [addRollingCol] at hok
  cases hv : getCol d c with
  | none => rw [hv] at hok; exact absurd hok (by simp)
  | some vals =>
    rw [hv] at hok
    simp only [Except.ok.injEq] at hok
    subst hok
    simp only [windows, List.foldl_cons, List.foldl_nil]
    rw [getCol_setCol_ne _ _ _ _ (hm 14 (by decide)).2,
        getCol_setCol_ne _ _ _ _ (hm 14 (by decide)).1,
        getCol_setCol_ne _ _ _ _ (hm 7 (by decide)).2,
        getCol_setCol_ne _ _ _ _ (hm 7 (by decide)).1,
        getCol_setCol_ne _ _ _ _ (hm 3 (by decide)).2,
        getCol_setCol_ne _ _ _ _ (hm 3 (by decide)).1]

/-- Claim C2 (amended): `create_weather_features` does NOT degrade gracefully
when an expected weather column is absent — the rolling loop's
`groupby('city')[col]` raises a `KeyError`, so with `wind_speed_10m_max`
missing the whole call errors and no enriched frame is returned.  (Only
`train_prophet_model`'s regressor handling skips absent columns.) -/
theorem missing_weather_column_raises (df : Df)
    (h : getCol df "wind_speed_10m_max" = none) :
    ∃ msg, create_weather_features df = Except.error msg := by
  obtain ⟨e, he⟩ : ∃ e, weather_cols.foldlM addRollingCol df = Except.error e := by
    cases h1 : addRollingCol df "temperature_2m_max" with
    | error e => exact ⟨e, by simp only [weather_cols, List.foldlM_cons, h1, error_bind]⟩
    | ok d1 =>
      have hw1 : getCol d1 "wind_speed_10m_max" = none := by
        rw [getCol_addRollingCol _ h1 (by decide)]; exact h
      cases h2 : addRollingCol d1 "temperature_2m_min" with
      | error e =>
        exact ⟨e, by simp only [weather_cols, List.foldlM_cons, h1, ok_bind, h2, error_bind]⟩
      | ok d2 =>
        have hw2 : getCol d2 "wind_speed_10m_max" = none := by
          rw [getCol_addRollingCol _ h2 (by decide)]; exact hw1
        cases h3 : addRollingCol d2 "precipitation_sum" with
        | error e =>
          exact ⟨e, by simp only [weather_cols, List.foldlM_cons, h1, ok_bind, h2,
            h3, error_bind]⟩
        | ok d3 =>
          have hw3 : getCol d3 "wind_speed_10m_max" = none := by
            rw [getCol_addRollingCol _ h3 (by decide)]; exact hw2
          have h4 : addRollingCol d3 "wind_speed_10m_max" =
              Except.error ("KeyError: Column not found: " ++ "wind_speed_10m_max") := by
            rw [addRollingCol, hw3]
          exact ⟨"KeyError: Column not found: " ++ "wind_speed_10m_max",
            by simp only [weather_cols, List.foldlM_cons, h1, ok_bind, h2, h3,
              h4, error_bind]⟩
  exact ⟨e, by rw [create_weather_features, he, error_bind]⟩

/-- A concrete single-row frame lacking the `wind_speed_10m_max` column (the
`date` column is present, so the constructor's date coercion succeeds and
the failure is the rolling loop's). -/
def dfNoWind : Df :=
  { city := ["A"],
    cols := [("date", [some 0]), ("temperature_2m_max", [some 30]),
             ("temperature_2m_min", [some 22]), ("precipitation_sum", [some 5])] }

/-- C2 counterexample: with `wind_speed_10m_max` absent,
`create_weather_features` raises a `KeyError` naming the column instead of
succeeding with that feature skipped. -/
theorem missing_weather_column_raises_concrete :
    create_weather_features dfNoWind =
      Except.error "KeyError: Column not found: wind_speed_10m_max" := by rfl

/-- The C2 theorem applied at the concrete frame without a wind column. -/
theorem missing_weather_column_raises_witness :
    getCol dfNoWind "wind_speed_10m_max" = none ∧
      ∃ msg, create_weather_features dfNoWind = Except.error msg :=
  ⟨rfl, missing_weather_column_raises dfNoWind rfl⟩

/-- Claim C10: the repair of `create_weather_features` forward/backward
fills every column whose name is outside the fixed context set — the target
column (e.g. `arbovirus_bool`) included — so a missing cell receives the
nearest preceding present value of the same column under the global
(non-per-city) ordering, or failing that the nearest following present
value; it is neither left missing nor zero-filled when a neighbour exists. -/
theorem global_fill_covers_target (df : Df) (n : String) (col : List Cell)
    (hcol : getCol df n = some col) (hn : exclude_columns.contains n = false) :
    getCol (applyGlobalFill df) n = some (fillBoth col) ∧
    ∀ i, i < col.length →
      (fillBoth col).getD i none =
        match lastP (col.take (i + 1)) with
        | some v => some v
        | none => firstP (col.drop (i + 1)) := by
  constructor
  · rw [getCol_applyGlobalFill, hcol, Option.map_some', if_neg (by rw [hn]; simp)]
  · exact fun i hi => fillBoth_getD col i hi

/-- A concrete frame whose target column has a missing middle value. -/
def dfHole : Df :=
  { city := ["A", "A", "A"],
    cols := [("arbovirus_bool", [some 1, none, some 0]),
             ("latitude", [some 7, some 7, some 7])] }

/-- The C10 theorem applied to the target column of `dfHole`, plus the
evaluated repair: the hole receives the neighbouring value `1` — not `0`
and not missing. -/
theorem global_fill_covers_target_witness :
    (getCol (applyGlobalFill dfHole) "arbovirus_bool" =
        some (fillBoth [some 1, none, some 0]) ∧
      ∀ i, i < ([some 1, none, some 0] : List Cell).length →
        (fillBoth [some 1, none, some 0]).getD i none =
          match lastP (([some 1, none, some 0] : List Cell).take (i + 1)) with
          | some v => some v
          | none => firstP (([some 1, none, some 0] : List Cell).drop (i + 1))) ∧
    fillBoth [some 1, none, some 0] = [some 1, some 1, some 0] :=
  ⟨global_fill_covers_target dfHole "arbovirus_bool" [some 1, none, some 0] rfl
      (by decide),
   by decide⟩

theorem wf_addRollingCol {d d' : Df} {c : String} (hwf : Wf d)
    (hok : addRollingCol d c = Except.ok d') : Wf d' := by
  rw [addRollingCol] at hok
  cases hv : getCol d c with
  | none => rw [hv] at hok; exact absurd hok (by simp)
  | some vals =>
    rw [hv] at hok
    simp only [Except.ok.injEq] at hok
    subst hok
    have main : ∀ ws : List Nat, ∀ dd : Df, Wf dd → dd.city = d.city →
        Wf (ws.foldl (fun d0 w =>
          setCol (setCol d0 (rollName c w "mean") (transformByCity (rollingMean w) d.city vals))
            (rollName c w "std") (transformByCity (rollingStdSq w) d.city vals)) dd) ∧
        (ws.foldl (fun d0 w =>
          setCol (setCol d0 (rollName c w "mean") (transformByCity (rollingMean w) d.city vals))
            (rollName c w "std") (transformByCity (rollingStdSq w) d.city vals)) dd).city
          = d.city := by
      intro ws
      induction ws with
      | nil => intro dd h1 h2; exact ⟨h1, h2⟩
      | cons w ws ih =>
        intro dd h1 h2
        rw [List.foldl_cons]
        refine ih _ ?_ ?_
        · have hlen1 : (transformByCity (rollingMean w) d.city vals).length = dd.city.length := by
            rw [length_transformByCity, h2]
          have hwf1 := wf_setCol h1 hlen1 (rollName c w "mean")
          have hlen2 : (transformByCity (rollingStdSq w) d.city vals).length =
              (setCol dd (rollName c w "mean")
                (transformByCity (rollingMean w) d.city vals)).city.length := by
            rw [setCol_city, length_transformByCity, h2]
          exact wf_setCol hwf1 hlen2 (rollName c w "std")
        · rw [setCol_city, setCol_city, h2]
    exact (main windows d hwf rfl).1

theorem wf_foldlM_addRolling (cols : List String) (d d' : Df) (hwf : Wf d)
    (hok : cols.foldlM addRollingCol d = Except.ok d') : Wf d' := by
  induction cols generalizing d with
  | nil =>
    rw [List.foldlM_nil, pure_except] at hok
    simp only [Except.ok.injEq] at hok
    exact hok ▸ hwf
  | cons cHead rest ih =>
    rw [List.foldlM_cons] at hok
    cases h1 : addRollingCol d cHead with
    | error e => rw [h1, error_bind] at hok; exact absurd hok (by simp)
    | ok d1 =>
      rw [h1, ok_bind] at hok
      exact ih d1 (wf_addRollingCol hwf h1) hok

theorem fillColEntry_fst (p : String × List Cell) : (fillColEntry p).1 = p.1 := by
  rw [fillColEntry]; split <;> rfl

theorem wf_lag_fold (dfB : Df) (breeding : List Cell) (hwfB : Wf dfB)
    (lags : List Nat) :
    Wf (lags.foldl (fun d lag =>
      setCol d ("breeding_conditions_lag_" ++ toString lag)
        (transformByCity (shiftThenFill0 lag) dfB.city breeding)) dfB) := by
  suffices h : ∀ ls : List Nat, ∀ dd : Df, Wf dd → dd.city = dfB.city →
      Wf (ls.foldl (fun d lag =>
        setCol d ("breeding_conditions_lag_" ++ toString lag)
          (transformByCity (shiftThenFill0 lag) dfB.city breeding)) dd) ∧
      (ls.foldl (fun d lag =>
        setCol d ("breeding_conditions_lag_" ++ toString lag)
          (transformByCity (shiftThenFill0 lag) dfB.city breeding)) dd).city = dfB.city by
    exact (h lags dfB hwfB rfl).1
  intro ls
  induction ls with
  | nil => intro dd h1 h2; exact ⟨h1, h2⟩
  | cons lag ls ih =>
    intro dd h1 h2
    rw [List.foldl_cons]
    refine ih _ ?_ ?_
    · have hlen : (transformByCity (shiftThenFill0 lag) dfB.city breeding).length
          = dd.city.length := by
        rw [length_transformByCity, h2]
      exact wf_setCol h1 hlen _
    · rw [setCol_city, h2]

/-- On success, `create_weather_features` returns the row filter applied to
the global fill of a rectangular frame (the frame holding every generated
column). -/
theorem create_weather_features_ok_shape (df df' : Df) (hwf : Wf df)
    (hok : create_weather_features df = Except.ok df') :
    ∃ dfL : Df, Wf dfL ∧ dropnaRow (applyGlobalFill dfL) = Except.ok df' := by
  rw [create_weather_features] at hok
  cases hR : weather_cols.foldlM addRollingCol df with
  | error e => rw [hR] at hok; exact absurd hok (by simp [error_bind])
  | ok dfR =>
    simp only [hR, ok_bind] at hok
    have hwfR : Wf dfR := wf_foldlM_addRolling weather_cols df dfR hwf hR
    cases hg1 : getCol dfR "temperature_2m_max" with
    | none =>
      have hreq : requireCol dfR "temperature_2m_max" =
          Except.error ("KeyError: " ++ "temperature_2m_max") := by
        rw [requireCol, hg1]
      rw [hreq, error_bind] at hok
      exact absurd hok (by simp)
    | some tm =>
      have hreq1 : requireCol dfR "temperature_2m_max" = Except.ok tm := by
        rw [requireCol, hg1]
      simp only [hreq1, ok_bind] at hok
      have hwfO : Wf (setCol dfR "optimal_mosquito_temp" (tm.map optimalMosquitoTemp)) := by
        refine wf_setCol hwfR ?_ _
        rw [List.length_map]
        exact wf_getCol hwfR hg1
      cases hg2 : getCol (setCol dfR "optimal_mosquito_temp" (tm.map optimalMosquitoTemp))
          "precipitation_sum" with
      | none =>
        have hreq : requireCol (setCol dfR "optimal_mosquito_temp"
            (tm.map optimalMosquitoTemp)) "precipitation_sum" =
            Except.error ("KeyError: " ++ "precipitation_sum") := by
          rw [requireCol, hg2]
        rw [hreq, error_bind] at hok
        exact absurd hok (by simp)
      | some precip =>
        have hreq2 : requireCol (setCol dfR "optimal_mosquito_temp"
            (tm.map optimalMosquitoTemp)) "precipitation_sum" = Except.ok precip := by
          rw [requireCol, hg2]
        simp only [hreq2, ok_bind] at hok
        cases hg3 : getCol (setCol dfR "optimal_mosquito_temp" (tm.map optimalMosquitoTemp))
            "temperature_2m_min" with
        | none =>
          have hreq : requireCol (setCol dfR "optimal_mosquito_temp"
              (tm.map optimalMosquitoTemp)) "temperature_2m_min" =
              Except.error ("KeyError: " ++ "temperature_2m_min") := by
            rw [requireCol, hg3]
          rw [hreq, error_bind] at hok
          exact absurd hok (by simp)
        | some tmin =>
          have hreq3 : requireCol (setCol dfR "optimal_mosquito_temp"
              (tm.map optimalMosquitoTemp)) "temperature_2m_min" = Except.ok tmin := by
            rw [requireCol, hg3]
          simp only [hreq3, ok_bind] at hok
          refine ⟨_, ?_, hok⟩
          have hwfB : Wf (setCol (setCol dfR "optimal_mosquito_temp"
              (tm.map optimalMosquitoTemp)) "breeding_conditions"
              (List.zipWith breedingConditions precip tmin)) := by
            refine wf_setCol hwfO ?_ _
            rw [List.length_zipWith, wf_getCol hwfO hg2, wf_getCol hwfO hg3]
            exact Nat.min_self _
          exact wf_lag_fold _ _ hwfB lag_days

/-- Claim C5 (amended): after the repair, every non-context column of the
returned frame is either fully populated or entirely missing — a
weather-derived column holding at least one present value is fully filled by
the forward/backward repair, but a column with no present value at all
(e.g. any rolling std column when every city has a single row, see
`repair_leaves_missing_std`) stays missing, so the claim's "no missing
values anywhere" does not hold for every input dataset. -/
theorem repair_populates_or_leaves_empty (df df' : Df) (hwf : Wf df)
    (hok : create_weather_features df = Except.ok df')
    (p : String × List Cell) (hp : p ∈ df'.cols)
    (hx : exclude_columns.contains p.1 = false) :
    (∀ y ∈ p.2, y = none) ∨ (∀ y ∈ p.2, y.isSome = true) := by
  obtain ⟨dfL, hwfL, hdrop⟩ := create_weather_features_ok_shape df df' hwf hok
  rw [dropnaRow] at hdrop
  cases hms : missingSubset (applyGlobalFill dfL) with
  | cons n rest =>
    rw [hms] at hdrop
    exact absurd hdrop (by simp)
  | nil =>
  simp only [hms, Except.ok.injEq] at hdrop
  subst hdrop
  obtain ⟨q, hq, hqe⟩ := List.mem_map.mp hp
  obtain ⟨q0, hq0, hq0e⟩ := List.mem_map.mp hq
  subst hqe
  subst hq0e
  have hx0 : exclude_columns.contains q0.1 = false := by
    rw [← fillColEntry_fst q0]; exact hx
  obtain ⟨k0, b0⟩ := q0
  have hfill : fillColEntry (k0, b0) = (k0, fillBoth b0) := fillColEntry_filled hx0
  have hlen : b0.length = dfL.city.length := hwfL (k0, b0) hq0
  rw [hfill]
  by_cases hpres : ∃ x ∈ b0, x.isSome = true
  · right
    intro y hy
    obtain ⟨i, hi, hiy⟩ := List.mem_map.mp hy
    have hin : i < dfL.city.length := by
      have := List.mem_filter.mp hi
      simpa using List.mem_range.mp this.1
    rw [← hiy]
    show ((fillBoth b0).getD i none).isSome = true
    exact fillBoth_isSome b0 hpres i (by omega)
  · left
    have hall : ∀ x ∈ b0, x = none := by
      intro x hx2
      cases hxx : x with
      | none => rfl
      | some v => exact absurd ⟨x, hx2, by rw [hxx]; rfl⟩ hpres
    intro y hy
    obtain ⟨i, hi, hiy⟩ := List.mem_map.mp hy
    rw [← hiy]
    show (fillBoth b0).getD i none = none
    exact fillBoth_all_none b0 hall i

/-- A concrete single-row frame carrying every context column of the record
schema (the categorical context values are carried as numeric codes — only
their presence matters to `dropna`) together with every expected weather
column and the target. -/
def dfOneRow : Df :=
  { city := ["A"],
    cols := [("date", [some 0]), ("latitude", [some 7]), ("longitude", [some 3]),
             ("country", [some 1]), ("country_id", [some 1]), ("status", [some 1]),
             ("occurrence_id", [some 1]), ("vector", [some 1]), ("source_type", [some 1]),
             ("location_type", [some 1]),
             ("temperature_2m_max", [some 30]), ("temperature_2m_min", [some 22]),
             ("precipitation_sum", [some 5]), ("wind_speed_10m_max", [some 10]),
             ("arbovirus_bool", [some 1])] }

/-- C5 counterexample: on the single-row dataset `dfOneRow` the weather
feature builder succeeds, yet after the forward/backward repair the rolling
std column `temperature_2m_max_3d_std` still holds a missing value — the
fill cannot populate a column with no present value. -/
theorem repair_leaves_missing_std :
    (create_weather_features dfOneRow).toOption.bind
      (fun r => getCol r "temperature_2m_max_3d_std") = some [none] := by decide

/-- The enriched frame `create_weather_features` returns on `dfOneRow`. -/
def dfOneRowOut : Df := ((create_weather_features dfOneRow).toOption).getD ⟨[], []⟩

/-- The C5 theorem applied at `dfOneRow` and its std column, whose single
cell the repair left missing (the all-missing branch of the dichotomy). -/
theorem repair_populates_or_leaves_empty_witness :
    (∀ y ∈ ([none] : List Cell), y = none) ∨
      (∀ y ∈ ([none] : List Cell), y.isSome = true) :=
  repair_populates_or_leaves_empty dfOneRow dfOneRowOut
    (by intro p hp; fin_cases hp <;> rfl) rfl
    ("temperature_2m_max_3d_std", [none]) (by decide) (by decide)

theorem length_make_future (hist : List Nat) (periods : Nat) :
    (make_future_dataframe hist periods).length = hist.length + periods := by
  simp [make_future_dataframe]

/-- The future-regressor loop places `(r, replicate futLen lastv)` in its
output for every present regressor `r` whose column's last value is
`lastv`. -/
theorem buildFutureRegs_carry (regs : List (String × List Cell)) (futLen : Nat)
    (rlist : List String) (r : String) (xs : List Cell) (lastv : Cell)
    (out : List (String × List Cell)) (hr : r ∈ rlist)
    (hlook : regs.lookup r = some xs) (hlast : xs.getLast? = some lastv)
    (hok : buildFutureRegs regs futLen rlist = Except.ok out) :
    (r, List.replicate futLen lastv) ∈ out := by
  induction rlist generalizing out with
  | nil => simp at hr
  | cons a rest ih =>
    rw [buildFutureRegs] at hok
    by_cases ha : a = r
    · subst ha
      simp only [hlook, hlast] at hok
      cases ht : buildFutureRegs regs futLen rest with
      | error e => rw [ht, error_bind] at hok; exact absurd hok (by simp)
      | ok tail =>
        simp only [ht, ok_bind, Except.ok.injEq] at hok
        subst hok
        exact List.mem_cons_self _ _
    · have hr' : r ∈ rest := by
        rcases List.mem_cons.mp hr with h | h
        · exact absurd h.symm ha
        · exact h
      cases hla : regs.lookup a with
      | none =>
        simp only [hla] at hok
        exact ih _ hr' hok
      | some ys =>
        simp only [hla] at hok
        cases hys : ys.getLast? with
        | none => simp only [hys] at hok; exact absurd hok (by simp)
        | some l2 =>
          simp only [hys] at hok
          cases ht : buildFutureRegs regs futLen rest with
          | error e => rw [ht, error_bind] at hok; exact absurd hok (by simp)
          | ok tail =>
            simp only [ht, ok_bind, Except.ok.injEq] at hok
            subst hok
            exact List.mem_cons_of_mem _ (ih _ hr' ht)

/-- Claim C8: for every city and every registered regressor present in the
city's frame, the regressor column placed on the future frame — the frame
handed to `predict` — is the city's last historical value of that regressor
(`iloc[-1]`), repeated unchanged; in particular every value in the future
forecast range equals it. -/
theorem future_regressor_carry_forward (cf : CityFrame) (periods : Nat)
    (regressors : List String) (r : String) (xs : List Cell) (lastv : Cell)
    (out : List (String × List Cell))
    (hr : r ∈ regressors) (hlook : cf.regs.lookup r = some xs)
    (hlast : xs.getLast? = some lastv)
    (hok : buildFutureRegs cf.regs (make_future_dataframe cf.ds periods).length regressors
      = Except.ok out) :
    ∃ col, (r, col) ∈ out ∧ col = List.replicate (cf.ds.length + periods) lastv ∧
      ∀ i, cf.ds.length ≤ i → i < cf.ds.length + periods → col.getD i none = lastv := by
  have hmem := buildFutureRegs_carry cf.regs _ regressors r xs lastv out hr hlook hlast hok
  refine ⟨List.replicate (make_future_dataframe cf.ds periods).length lastv, hmem, ?_, ?_⟩
  · rw [length_make_future]
  · intro i h1 h2
    have hi : i < (List.replicate (make_future_dataframe cf.ds periods).length lastv).length := by
      rw [List.length_replicate, length_make_future]; omega
    rw [List.getD_eq_getElem _ _ hi, List.getElem_replicate]

/-- A concrete city frame: three days of history and one regressor column. -/
def cfB : CityFrame :=
  { ds := [0, 1, 2], y := [1, 0, 2],
    regs := [("temperature_2m_max", [some 31, some 32, some 33])] }

/-- The C8 theorem applied at `cfB` with a 2-day horizon: the future
temperature column is the last value `33` repeated over all 5 future rows. -/
theorem future_regressor_carry_forward_witness :
    ∃ col, ("temperature_2m_max", col) ∈
        [("temperature_2m_max", List.replicate 5 (some (33 : ℚ)))] ∧
      col = List.replicate (cfB.ds.length + 2) (some (33 : ℚ)) ∧
      ∀ i, cfB.ds.length ≤ i → i < cfB.ds.length + 2 →
        col.getD i none = some (33 : ℚ) :=
  future_regressor_carry_forward cfB 2 default_regressors "temperature_2m_max"
    [some 31, some 32, some 33] (some 33) _ (by decide) rfl rfl (by rfl)

/-- Claim C7: for every `(date, city)` group that `prepare_data` forms, the
produced city frame holds a row for that date whose `y` is the pandas `sum`
of the group's target values (present values summed) and whose value in
every other column is the pandas `first` of the group: the first value
observed — the first non-missing value — in input order. -/
theorem prepare_data_aggregation (f : PFrame) (d : Nat) (c : String)
    (hlen : f.dates.length = f.cities.length)
    (hne : keyIdxs f d c ≠ []) :
    ∃ cf j, (c, cf) ∈ prepare_data f ∧ j < cf.ds.length ∧
      cf.ds.getD j 0 = d ∧
      cf.y.getD j 0 = sumPresent (groupVals f.target (keyIdxs f d c)) ∧
      ∀ p ∈ f.others, ∃ ys, (p.1, ys) ∈ cf.regs ∧
        ys.getD j none = firstP (groupVals p.2 (keyIdxs f d c)) := by
  obtain ⟨i, himem⟩ := List.exists_mem_of_ne_nil _ hne
  have hfil := List.mem_filter.mp himem
  have hirange : i < f.cities.length := List.mem_range.mp hfil.1
  have hpred := hfil.2
  rw [Bool.and_eq_true, beq_iff_eq, beq_iff_eq] at hpred
  obtain ⟨hd, hc⟩ := hpred
  have hdlen : i < f.dates.length := by omega
  have hilen : i < (f.dates.zip f.cities).length := by
    rw [List.length_zip]; omega
  have hzipval : (f.dates.zip f.cities).getD i (0, "") = (d, c) := by
    rw [List.getD_eq_getElem _ _ hilen, List.getElem_zip]
    have h1 : f.dates.get ⟨i, hdlen⟩ = d := by
      rw [List.get_eq_getElem, ← List.getD_eq_getElem f.dates 0 hdlen]; exact hd
    have h2 : f.cities.get ⟨i, hirange⟩ = c := by
      rw [List.get_eq_getElem, ← List.getD_eq_getElem f.cities "" hirange]; exact hc
    rw [List.get_eq_getElem] at h1 h2
    rw [h1, h2]
  have hzip : (d, c) ∈ f.dates.zip f.cities := by
    rw [← hzipval]
    exact getD_mem _ _ _ hilen
  have hkey : (d, c) ∈ aggKeys f := by
    rw [aggKeys, (List.perm_insertionSort lexLe _).mem_iff, List.mem_dedup]
    exact hzip
  have hcity : c ∈ cityNames f := by
    rw [cityNames, (List.perm_insertionSort strLeP _).mem_iff, List.mem_dedup]
    exact List.mem_map.mpr ⟨(d, c), hkey, rfl⟩
  have hkmem : (d, c) ∈ cityKeys f c :=
    List.mem_filter.mpr ⟨hkey, by simp⟩
  obtain ⟨j, hj, hjval⟩ := List.mem_iff_getElem.mp hkmem
  have hdslen : ((cityKeys f c).map Prod.fst).length = (cityKeys f c).length :=
    List.length_map _ _
  refine ⟨cityFrameFor f c, j, List.mem_map.mpr ⟨c, hcity, rfl⟩, ?_, ?_, ?_, ?_⟩
  · show j < ((cityKeys f c).map Prod.fst).length
    rw [hdslen]; exact hj
  · show ((cityKeys f c).map Prod.fst).getD j 0 = d
    rw [List.getD_eq_getElem _ _ (by rw [hdslen]; exact hj), List.getElem_map, hjval]
  · show ((cityKeys f c).map
        (fun k => sumPresent (groupVals f.target (keyIdxs f k.1 k.2)))).getD j 0 =
      sumPresent (groupVals f.target (keyIdxs f d c))
    rw [List.getD_eq_getElem _ _ (by rw [List.length_map]; exact hj), List.getElem_map, hjval]
  · intro p hp
    refine ⟨(cityKeys f c).map (fun k => firstP (groupVals p.2 (keyIdxs f k.1 k.2))),
      List.mem_map.mpr ⟨p, hp, rfl⟩, ?_⟩
    rw [List.getD_eq_getElem _ _ (by rw [List.length_map]; exact hj), List.getElem_map, hjval]

/-- A concrete frame with two raw rows sharing `(date, city) = (5, A)`,
target values `1` and `1`, and differing temperature values. -/
def frameDup : PFrame :=
  { dates := [5, 5], cities := ["A", "A"], target := [some 1, some 1],
    others := [("temperature_2m_max", [some 30, some 99])] }

/-- The C7 theorem applied at `frameDup`, plus the evaluated reductions: the
aggregated target is `1 + 1 = 2` and the other column keeps the first row's
value `30`. -/
theorem prepare_data_aggregation_witness :
    (∃ cf j, ("A", cf) ∈ prepare_data frameDup ∧ j < cf.ds.length ∧
      cf.ds.getD j 0 = 5 ∧
      cf.y.getD j 0 = sumPresent (groupVals frameDup.target (keyIdxs frameDup 5 "A")) ∧
      ∀ p ∈ frameDup.others, ∃ ys, (p.1, ys) ∈ cf.regs ∧
        ys.getD j none = firstP (groupVals p.2 (keyIdxs frameDup 5 "A"))) ∧
    sumPresent (groupVals frameDup.target (keyIdxs frameDup 5 "A")) = 2 ∧
    firstP (groupVals [some 30, some 99] (keyIdxs frameDup 5 "A")) = some 30 :=
  ⟨prepare_data_aggregation frameDup 5 "A" rfl (by decide),
   by
     have h : groupVals frameDup.target (keyIdxs frameDup 5 "A") = [some 1, some 1] := by
       decide
     rw [h]
     simp [sumPresent, presentVals]
     norm_num,
   by decide⟩

/-- The per-city loop propagates the first failure: if any city's training
raises, the whole loop returns an error and no row list is produced. -/
theorem forecastCityRows_error {M : Type} (fitE : CityFrame → List String → Except String M)
    (predictE : M → List Nat → List (String × List Cell) → List (ℚ × ℚ × ℚ))
    (periods : Nat) (pdata : List (String × CityFrame)) (c : String) (cf : CityFrame)
    (e : String) (hmem : (c, cf) ∈ pdata)
    (hfail : train_prophet_model fitE predictE cf periods default_regressors
      = Except.error e) :
    ∃ msg, forecastCityRows fitE predictE periods pdata = Except.error msg := by
  induction pdata with
  | nil => simp at hmem
  | cons p rest ih =>
    obtain ⟨a, acf⟩ := p
    rw [forecastCityRows]
    rcases List.mem_cons.mp hmem with heq | hmem'
    · obtain ⟨rfl, rfl⟩ : c = a ∧ cf = acf := by
        exact ⟨congrArg Prod.fst heq, congrArg Prod.snd heq⟩
      rw [hfail, error_bind]
      exact ⟨e, rfl⟩
    · cases ht : train_prophet_model fitE predictE acf periods default_regressors with
      | error e2 => rw [error_bind]; exact ⟨e2, rfl⟩
      | ok fp =>
        simp only [ok_bind]
        obtain ⟨m, hm⟩ := ih hmem'
        rw [hm, error_bind]
        exact ⟨m, rfl⟩

/-- Claim C3 (amended): a model-fit failure for one city is NOT a
recoverable per-city failure — the loop of `generate_forecast_dataframe`
has no handler, so the engine's error propagates out of the whole run: the
failing city is not skipped, no other city's forecast is produced, and the
offending city is identified only by whatever message the engine itself
raises. -/
theorem fit_failure_aborts_run {M : Type} (fitE : CityFrame → List String → Except String M)
    (predictE : M → List Nat → List (String × List Cell) → List (ℚ × ℚ × ℚ))
    (f : PFrame) (periods : Nat) (c : String) (cf : CityFrame) (e : String)
    (hmem : (c, cf) ∈ prepare_data f)
    (hfail : train_prophet_model fitE predictE cf periods default_regressors
      = Except.error e) :
    ∃ msg, generate_forecast_dataframe fitE predictE f periods = Except.error msg := by
  obtain ⟨m, hm⟩ :=
    forecastCityRows_error fitE predictE periods (prepare_data f) c cf e hmem hfail
  exact ⟨m, by rw [generate_forecast_dataframe, hm, error_bind]⟩

/-- A two-city frame: city A has a single day of history, city B has
three. -/
def frameAB : PFrame :=
  { dates := [0, 0, 1, 2],
    cities := ["A", "B", "B", "B"],
    target := [some 1, some 1, some 0, some 2],
    others := [("temperature_2m_max", [some 30, some 31, some 32, some 33])] }

/-- The same data restricted to city B's rows. -/
def frameB : PFrame :=
  { dates := [0, 1, 2], cities := ["B", "B", "B"], target := [some 1, some 0, some 2],
    others := [("temperature_2m_max", [some 31, some 32, some 33])] }

/-- A stub engine whose fit raises on short histories, the way Prophet does
on insufficient data. -/
def fitInsufficient : CityFrame → List String → Except String Unit := fun cf _ =>
  if cf.ds.length < 2 then Except.error "Prophet fit failed: insufficient history"
  else Except.ok ()

/-- A stub engine whose fit always succeeds. -/
def fitAlwaysOk : CityFrame → List String → Except String Unit := fun _ _ => Except.ok ()

/-- A stub prediction returning zeros, one row per future date. -/
def predictZero : Unit → List Nat → List (String × List Cell) → List (ℚ × ℚ × ℚ) :=
  fun _ fut _ => fut.map (fun _ => (0, 0, 0))

/-- C3 counterexample: with city A too short to fit, the whole run errors —
city A is not omitted-with-others-kept, and city B's forecast (which the
second conjunct shows would succeed on its own) is not produced. -/
theorem fit_failure_not_recoverable :
    generate_forecast_dataframe fitInsufficient predictZero frameAB 2
        = Except.error "Prophet fit failed: insufficient history" ∧
      ∃ out, generate_forecast_dataframe fitInsufficient predictZero frameB 2
        = Except.ok out :=
  ⟨by rfl, ⟨_, rfl⟩⟩

/-- The C3 theorem applied at the concrete two-city frame whose city A has
a one-day history. -/
theorem fit_failure_aborts_run_witness :
    ∃ msg, generate_forecast_dataframe fitInsufficient predictZero frameAB 2
      = Except.error msg :=
  fit_failure_aborts_run fitInsufficient predictZero frameAB 2 "A"
    (cityFrameFor frameAB "A") "Prophet fit failed: insufficient history"
    (List.mem_map.mpr ⟨"A", by decide, rfl⟩) (by rfl)

theorem train_ok_shape {M : Type} {fitE : CityFrame → List String → Except String M}
    {predictE : M → List Nat → List (String × List Cell) → List (ℚ × ℚ × ℚ)}
    {cf : CityFrame} {periods : Nat} {regs : List String}
    {fp : List Nat × List (ℚ × ℚ × ℚ)}
    (h : train_prophet_model fitE predictE cf periods regs = Except.ok fp) :
    fp.1 = make_future_dataframe cf.ds periods ∧
    ∃ m frs, fp.2 = predictE m (make_future_dataframe cf.ds periods) frs := by
  rw [train_prophet_model] at h
  cases hm : fitE cf (regs.filter (fun r => (cf.regs.lookup r).isSome)) with
  | error e => rw [hm, error_bind] at h; exact absurd h (by simp)
  | ok m =>
    simp only [hm, ok_bind] at h
    cases hfr : buildFutureRegs cf.regs (make_future_dataframe cf.ds periods).length regs with
    | error e => rw [hfr, error_bind] at h; exact absurd h (by simp)
    | ok frs =>
      simp only [hfr, ok_bind, Except.ok.injEq] at h
      subst h
      exact ⟨rfl, m, frs, rfl⟩

theorem foldr_max_le (l : List Nat) (x : Nat) (h : x ∈ l) : x ≤ l.foldr max 0 := by
  induction l with
  | nil => simp at h
  | cons a l ih =>
    rw [List.foldr_cons]
    rcases List.mem_cons.mp h with rfl | h'
    · exact le_max_left _ _
    · exact le_trans (ih h') (le_max_right _ _)

/-- The future index has no repeated date when the history has none: the
appended horizon dates all exceed the historical maximum. -/
theorem nodup_make_future (hist : List Nat) (periods : Nat) (h : hist.Nodup) :
    (make_future_dataframe hist periods).Nodup := by
  rw [make_future_dataframe]
  refine List.Nodup.append h ?_ ?_
  · exact List.Nodup.map (fun a b hab => by omega) (List.nodup_range _)
  · intro x hx hy
    obtain ⟨k, hk, hke⟩ := List.mem_map.mp hy
    have hle := foldr_max_le hist x hx
    omega

theorem nodup_aggKeys (f : PFrame) : (aggKeys f).Nodup := by
  rw [aggKeys]
  exact ((List.perm_insertionSort lexLe _).nodup_iff).mpr (List.nodup_dedup _)

theorem prepare_data_ds_nodup (f : PFrame) (c : String) (cf : CityFrame)
    (h : (c, cf) ∈ prepare_data f) : cf.ds.Nodup := by
  rw [prepare_data] at h
  obtain ⟨c', hc', hce⟩ := List.mem_map.mp h
  obtain ⟨rfl, rfl⟩ : c' = c ∧ cityFrameFor f c' = cf :=
    ⟨congrArg Prod.fst hce, congrArg Prod.snd hce⟩
  show ((cityKeys f c').map Prod.fst).Nodup
  have hks : (cityKeys f c').Nodup := (nodup_aggKeys f).filter _
  refine List.Nodup.map_on ?_ hks
  intro x hx y hy hxy
  have hxc := (List.mem_filter.mp hx).2
  have hyc := (List.mem_filter.mp hy).2
  rw [beq_iff_eq] at hxc hyc
  exact Prod.ext hxy (hxc.trans hyc.symm)

theorem prepare_data_cities_nodup (f : PFrame) :
    ((prepare_data f).map Prod.fst).Nodup := by
  have hmap : (prepare_data f).map Prod.fst = cityNames f := by
    rw [prepare_data, List.map_map]
    have hcomp : Prod.fst ∘ (fun c => (c, cityFrameFor f c)) = id := rfl
    rw [hcomp, List.map_id]
  rw [hmap, cityNames]
  exact ((List.perm_insertionSort strLeP _).nodup_iff).mpr (List.nodup_dedup _)

/-- On success the per-city loop's rows decompose into one block per city,
in order: block `i` holds exactly one row per future date of city `i`
(historical dates then the horizon), with no repeated date, every row
tagged with that city. -/
theorem forecastCityRows_ok_shape {M : Type} (fitE : CityFrame → List String → Except String M)
    (predictE : M → List Nat → List (String × List Cell) → List (ℚ × ℚ × ℚ))
    (hE : ∀ m fut frs, (predictE m fut frs).length = fut.length)
    (periods : Nat) (pdata : List (String × CityFrame)) (rows : List FRow)
    (hnd : ∀ p ∈ pdata, (p : String × CityFrame).2.ds.Nodup)
    (hok : forecastCityRows fitE predictE periods pdata = Except.ok rows) :
    ∃ blocks : List (List FRow), rows = blocks.flatten ∧
      List.Forall₂ (fun block (p : String × CityFrame) =>
        block.map (fun row => row.1) = make_future_dataframe p.2.ds periods ∧
        (block.map (fun row => row.1)).Nodup ∧
        ∀ row ∈ block, row.2.2.2.2 = p.1) blocks pdata := by
  induction pdata generalizing rows with
  | nil =>
    rw [forecastCityRows] at hok
    simp only [Except.ok.injEq] at hok
    subst hok
    exact ⟨[], rfl, List.Forall₂.nil⟩
  | cons p rest ih =>
    obtain ⟨a, acf⟩ := p
    rw [forecastCityRows] at hok
    cases ht : train_prophet_model fitE predictE acf periods default_regressors with
    | error e => rw [ht, error_bind] at hok; exact absurd hok (by simp)
    | ok fp =>
      simp only [ht, ok_bind] at hok
      cases hrest : forecastCityRows fitE predictE periods rest with
      | error e => rw [hrest, error_bind] at hok; exact absurd hok (by simp)
      | ok tail =>
        simp only [hrest, ok_bind, Except.ok.injEq] at hok
        subst hok
        obtain ⟨blocks, rfl, hf⟩ :=
          ih tail (fun q hq => hnd q (List.mem_cons_of_mem _ hq)) hrest
        obtain ⟨hfut, m, frs, hpred⟩ := train_ok_shape ht
        have hlen : fp.1.length ≤ fp.2.length := by
          have h1 : fp.2.length = (make_future_dataframe acf.ds periods).length := by
            rw [hpred, hE]
          have h2 : fp.1.length = (make_future_dataframe acf.ds periods).length := by
            rw [hfut]
          omega
        have hmapfst : (cityBlock a fp.1 fp.2).map (fun row : FRow => row.1)
            = (fp.1.zip fp.2).map Prod.fst := by
          rw [cityBlock, List.map_map]
          rfl
        have hdates : (cityBlock a fp.1 fp.2).map (fun row : FRow => row.1)
            = make_future_dataframe acf.ds periods := by
          rw [hmapfst, List.map_fst_zip _ _ hlen, hfut]
        refine ⟨cityBlock a fp.1 fp.2 :: blocks, rfl, List.Forall₂.cons ⟨hdates, ?_, ?_⟩ hf⟩
        · rw [hdates]
          exact nodup_make_future _ _ (hnd (a, acf) (List.mem_cons_self _ _))
        · intro row hrow
          obtain ⟨q, hq, hqe⟩ := List.mem_map.mp hrow
          rw [← hqe]

/-- Claim C1 (amended): on success the combined table's columns are exactly
`date, forecasted_arbovirus_cases, yhat_lower, yhat_upper, city` — the code
renames only `ds` and `yhat`, so the point estimate is
`forecasted_arbovirus_cases` (not `forecasted_count`) and the bounds keep
Prophet's `yhat_lower`/`yhat_upper` names — and the rows are one block per
city, the cities pairwise distinct, each block holding exactly one row per
date of that city's historical-fit range plus the future horizon, with no
repeated date: one row per `(city, date)`. -/
theorem forecast_table_shape {M : Type} (fitE : CityFrame → List String → Except String M)
    (predictE : M → List Nat → List (String × List Cell) → List (ℚ × ℚ × ℚ))
    (hE : ∀ m fut frs, (predictE m fut frs).length = fut.length)
    (f : PFrame) (periods : Nat) (cols : List String) (rows : List FRow)
    (hok : generate_forecast_dataframe fitE predictE f periods = Except.ok (cols, rows)) :
    cols = ["date", "forecasted_arbovirus_cases", "yhat_lower", "yhat_upper", "city"] ∧
    ((prepare_data f).map Prod.fst).Nodup ∧
    ∃ blocks : List (List FRow), rows = blocks.flatten ∧
      List.Forall₂ (fun block (p : String × CityFrame) =>
        block.map (fun row => row.1) = make_future_dataframe p.2.ds periods ∧
        (block.map (fun row => row.1)).Nodup ∧
        ∀ row ∈ block, row.2.2.2.2 = p.1) blocks (prepare_data f) := by
  rw [generate_forecast_dataframe] at hok
  cases hr : forecastCityRows fitE predictE periods (prepare_data f) with
  | error e => rw [hr, error_bind] at hok; exact absurd hok (by simp)
  | ok rows0 =>
    simp only [hr, ok_bind, Except.ok.injEq, Prod.mk.injEq] at hok
    obtain ⟨hcols, hrows⟩ := hok
    subst hrows
    refine ⟨by rw [← hcols]; rfl, prepare_data_cities_nodup f, ?_⟩
    exact forecastCityRows_ok_shape fitE predictE hE periods (prepare_data f) rows0
      (fun p hp => prepare_data_ds_nodup f p.1 p.2 hp) hr

/-- C1 counterexample: a successful concrete run returns the columns
`date, forecasted_arbovirus_cases, yhat_lower, yhat_upper, city` — not the
claimed `date, city, forecasted_count, lower_bound, upper_bound`. -/
theorem forecast_columns_not_as_specified :
    (generate_forecast_dataframe fitAlwaysOk predictZero frameB 2).toOption.map Prod.fst
        = some ["date", "forecasted_arbovirus_cases", "yhat_lower", "yhat_upper", "city"] ∧
      ["date", "forecasted_arbovirus_cases", "yhat_lower", "yhat_upper", "city"]
        ≠ ["date", "city", "forecasted_count", "lower_bound", "upper_bound"] :=
  ⟨by rfl, by decide⟩

/-- The C1 theorem applied at the concrete two-city frame with a one-day
horizon and the zero prediction stub. -/
theorem forecast_table_shape_witness :
    (["date", "forecasted_arbovirus_cases", "yhat_lower", "yhat_upper", "city"] : List String)
        = ["date", "forecasted_arbovirus_cases", "yhat_lower", "yhat_upper", "city"] ∧
    ((prepare_data frameAB).map Prod.fst).Nodup ∧
    ∃ blocks : List (List FRow),
      ([(0, 0, 0, 0, "A"), (1, 0, 0, 0, "A"), (0, 0, 0, 0, "B"), (1, 0, 0, 0, "B"),
        (2, 0, 0, 0, "B"), (3, 0, 0, 0, "B")] : List FRow) = blocks.flatten ∧
      List.Forall₂ (fun block (p : String × CityFrame) =>
        block.map (fun row => row.1) = make_future_dataframe p.2.ds 1 ∧
        (block.map (fun row => row.1)).Nodup ∧
        ∀ row ∈ block, row.2.2.2.2 = p.1) blocks (prepare_data frameAB) :=
  forecast_table_shape fitAlwaysOk predictZero
    (fun m fut frs => by simp [predictZero]) frameAB 1 _ _ (by rfl)

end Outbreaks
